import Mathlib

set_option maxRecDepth 1000000

/-!
Verification of the Aadhaar Secure QR payload decoder from
`src/frontend/src/config.ts` (`parseAadhaarQR`, `extractField`,
`isMadhaarQR`, `FIELD_POSITIONS`).

JavaScript strings are embedded as `List Char`; byte buffers
(`Uint8Array`, whose elements are always 0–255) as `List Nat`.  The two
external primitives imported from the third-party library
(`convertBigIntToByteArray` and `decompressByteArray`) are parameters of
the embedded `parseAadhaarQR`, so theorems quantify over them.
-/

/-- Whitespace predicate of JavaScript's `String.prototype.trim`
(ECMAScript WhiteSpace and LineTerminator code points). -/
def isJsSpace (c : Char) : Bool :=
  [9, 10, 11, 12, 13, 32, 160, 0x1680, 0x2000, 0x2001, 0x2002, 0x2003,
   0x2004, 0x2005, 0x2006, 0x2007, 0x2008, 0x2009, 0x200A, 0x2028,
   0x2029, 0x202F, 0x205F, 0x3000, 0xFEFF].contains c.toNat

/-- Embedding of JavaScript `s.trim()`: drop leading and trailing
whitespace characters. -/
def jsTrim (s : List Char) : List Char :=
  ((s.dropWhile isJsSpace).reverse.dropWhile isJsSpace).reverse

/-- Embedding of `Array.from(bytes).map(b => String.fromCharCode(b)).join('')`:
each byte (0–255, from a `Uint8Array`) becomes the character with that
code point. -/
def charsOfBytes (bs : List Nat) : List Char :=
  bs.map (fun b => Char.ofNat b)

/-- Embedding of `TypedArray.prototype.slice(start, stop)` for the calls
whose arguments are known to be non-negative: elements from index
`start` (inclusive) to `stop` (exclusive), clamped to the buffer. -/
def sliceNat (l : List Nat) (start stop : Nat) : List Nat :=
  (l.drop start).take (stop - start)

/-- Embedding of `TypedArray.prototype.slice(start, stop)` with the full
ECMAScript index coercion: a negative argument counts from the end of
the buffer, and both endpoints are clamped to `[0, length]`. -/
def jsSlice (l : List Nat) (start stop : Int) : List Nat :=
  let len : Int := l.length
  let k : Int := if start < 0 then max (len + start) 0 else min start len
  let fin : Int := if stop < 0 then max (len + stop) 0 else min stop len
  (l.drop k.toNat).take (fin - k).toNat

/-- Embedding of `BigInt(qrData)` for a string of decimal digits. -/
def natOfDigits (s : List Char) : Nat :=
  s.foldl (fun n c => 10 * n + (c.toNat - 48)) 0

/-- Embedding of the regular-expression test `/^[0-9]+$/.test(s)`
(also written `/^\d+$/`): at least one character, all decimal digits. -/
def regexNumeric (s : List Char) : Bool :=
  !s.isEmpty && s.all (fun c => c.isDigit)

/-- Embedding of JavaScript `s.split('-')` (single-character separator):
`""` splits to `[""]`, and each `'-'` starts a new part. -/
def splitOnDash : List Char → List (List Char)
  | [] => [[]]
  | c :: rest =>
    if c = '-' then [] :: splitOnDash rest
    else
      match splitOnDash rest with
      | [] => [[c]]
      | p :: ps => (c :: p) :: ps

/-- Character-level embedding of the source's global regex replace of
dash by slash: the pattern and the replacement are single characters,
so the replace maps each character independently. -/
def dashToSlash (c : Char) : Char :=
  if c = '-' then '/' else c

/-- Separator string joining two parts, `", "` in the source. -/
def commaSpace : List Char := [',', ' ']

/-- Join a list of strings with a separator between consecutive parts
(used only to state properties about the address accumulation loop). -/
def joinSep (sep : List Char) : List (List Char) → List Char
  | [] => []
  | [p] => p
  | p :: q :: ps => p ++ sep ++ joinSep sep (q :: ps)

/-- Errors raised by `parseAadhaarQR`.  The source raises plain
JavaScript `Error`s carrying condition-specific messages; each
constructor records which condition fired.  `insufficientDelimiters`
carries the delimiter count interpolated into the source's message. -/
inductive ParseError where
  | notNumeric
  | tooShort
  | decompressFailed
  | insufficientDelimiters (found : Nat)
deriving DecidableEq

/-- Modelled from the spec: the error taxonomy of §7, which classifies
the non-digit, too-short and insufficient-delimiter conditions as
`FormatError` and a decompression failure as `DecodeError`; the source
itself only raises untyped `Error` values with distinguishing messages. -/
def isFormatError : ParseError → Bool
  | ParseError.notNumeric => true
  | ParseError.tooShort => true
  | ParseError.insufficientDelimiters _ => true
  | ParseError.decompressFailed => false

/-- Output record shape of the decoder (`interface AadhaarData`).
Optional (`?`) fields of the TypeScript interface are `Option`s. -/
structure AadhaarData where
  name : List Char
  dateOfBirth : List Char
  gender : List Char
  address : List Char
  aadhaarLast4Digits : List Char
  pincode : Option (List Char)
  state : Option (List Char)
  photo : Option (List Char)
deriving DecidableEq

/-- Field positions in Aadhaar QR data (`const FIELD_POSITIONS`). -/
structure FieldPositions where
  REFERENCE_ID : Nat
  NAME : Nat
  DOB : Nat
  GENDER : Nat
  PINCODE : Nat
  STATE : Nat
  PHONE_NO : Nat
  PHOTO : Nat

/-- The `FIELD_POSITIONS` constant of the source. -/
def FIELD_POSITIONS : FieldPositions :=
  { REFERENCE_ID := 2, NAME := 3, DOB := 4, GENDER := 5,
    PINCODE := 11, STATE := 13, PHONE_NO := 17, PHOTO := 18 }

/-- Step 3 of the source: `decodedData.slice(0, decodedData.length - 256)`,
with JavaScript's negative-end slice coercion preserved. -/
def signedRegion (decodedData : List Nat) : List Nat :=
  jsSlice decodedData 0 ((decodedData.length : Int) - 256)

/-- Delimiter scan loop body: walk the buffer keeping the current index
and the indices collected so far (most recent first), pushing the index
of every byte equal to 255 and breaking as soon as 18 are collected. -/
def delimiterScanAux : List Nat → Nat → List Nat → List Nat
  | [], _, acc => acc.reverse
  | b :: rest, i, acc =>
    if b = 255 then
      if (i :: acc).length = 18 then (i :: acc).reverse
      else delimiterScanAux rest (i + 1) (i :: acc)
    else delimiterScanAux rest (i + 1) acc

/-- Step 4 of the source: collect the indices of delimiter bytes (255)
in the signed region, stopping after the 18th. -/
def delimiterScan (signedData : List Nat) : List Nat :=
  delimiterScanAux signedData 0 []

/-- The raw bytes of a delimiter-bounded field: for an in-range position
the slice between the surrounding delimiters, exclusive on both ends
(stated separately so that theorems can speak about the bytes before the
byte-to-character mapping and trimming). -/
def fieldBytes (delims signedData : List Nat) (position : Nat) : List Nat :=
  if delims.length ≤ position then []
  else
    sliceNat signedData
      (if position = 0 then 0 else delims.getD (position - 1) 0 + 1)
      (delims.getD position 0)

/-- Step 5 of the source, the inner `extractField` closure: positions at
or beyond the number of delimiters give `''`; otherwise the bytes
strictly between delimiter `position - 1` and delimiter `position` are
mapped to characters, concatenated and trimmed.  (For `position = 0` the
source reads `delimiterIndices[-1]`, which is `undefined`; adding 1
gives `NaN`, which `slice` coerces to 0.) -/
def extractField (delims signedData : List Nat) (position : Nat) : List Char :=
  if delims.length ≤ position then []
  else
    jsTrim (charsOfBytes (sliceNat signedData
      (if position = 0 then 0 else delims.getD (position - 1) 0 + 1)
      (delims.getD position 0)))

/-- DOB reformatting of the source: split the raw field on `'-'`; with
exactly three parts rejoin them with `'/'`, otherwise replace every
`'-'` by `'/'`. -/
def formatDOB (dobRaw : List Char) : List Char :=
  let dobParts := splitOnDash dobRaw
  if dobParts.length = 3 then
    dobParts.getD 0 [] ++ '/' :: dobParts.getD 1 [] ++ '/' :: dobParts.getD 2 []
  else dobRaw.map dashToSlash

/-- One iteration of the address loop:
`if (part) address += (address ? ', ' : '') + part`. -/
def addrStep (delims signedData : List Nat) (address : List Char) (i : Nat) : List Char :=
  let part := extractField delims signedData i
  if part.isEmpty then address
  else address ++ (if address.isEmpty then [] else commaSpace) ++ part

/-- The address accumulation loop of the source (`for i = 6..10`). -/
def buildAddress (delims signedData : List Nat) : List Char :=
  [6, 7, 8, 9, 10].foldl (addrStep delims signedData) []

/-- The placeholder string used when no address sub-field is present. -/
def addressNotAvailable : List Char := ("Address not available").toList

/-- Steps 3–13 of `parseAadhaarQR`, operating on the decompressed byte
buffer: compute the signed region, scan for delimiters, fail when fewer
than 7 are found, otherwise extract every field and assemble the record.
The record is only constructed on the success path, mirroring the
source, where the insufficient-delimiter `throw` precedes all field
extraction. -/
def parseDecompressed (decodedData : List Nat) : Except ParseError AadhaarData :=
  let signedData := signedRegion decodedData
  let delimiterIndices := delimiterScan signedData
  if delimiterIndices.length < 7 then
    Except.error (ParseError.insufficientDelimiters delimiterIndices.length)
  else
    let aadhaarLast4Digits := charsOfBytes (sliceNat signedData 5 9)
    let name := extractField delimiterIndices signedData FIELD_POSITIONS.NAME
    let dobRaw := extractField delimiterIndices signedData FIELD_POSITIONS.DOB
    let dateOfBirth := formatDOB dobRaw
    let gender := extractField delimiterIndices signedData FIELD_POSITIONS.GENDER
    let address := buildAddress delimiterIndices signedData
    let pincode := extractField delimiterIndices signedData FIELD_POSITIONS.PINCODE
    let state := extractField delimiterIndices signedData FIELD_POSITIONS.STATE
    Except.ok {
      name := name,
      dateOfBirth := dateOfBirth,
      gender := gender,
      address := if address.isEmpty then addressNotAvailable else address,
      aadhaarLast4Digits := aadhaarLast4Digits,
      pincode := if pincode.isEmpty then none else some pincode,
      state := if state.isEmpty then none else some state,
      photo := none }

/-- The full `parseAadhaarQR`: validate that the input is a non-empty
digit string, validate the length, convert the digit string to bytes
and decompress via the two external primitives (parameters here, since
the source imports them from a third-party library), then decode.  A
decompression failure is the `none` case, reported as the wrapped decode
failure of the source's `catch` block. -/
def parseAadhaarQR (convertBigIntToByteArray : Nat → List Nat)
    (decompressByteArray : List Nat → Option (List Nat))
    (qrData : List Char) : Except ParseError AadhaarData :=
  if !regexNumeric qrData then Except.error ParseError.notNumeric
  else if qrData.length < 100 then Except.error ParseError.tooShort
  else
    match decompressByteArray (convertBigIntToByteArray (natOfDigits qrData)) with
    | none => Except.error ParseError.decompressFailed
    | some decodedData => parseDecompressed decodedData

/-- Embedding of `isMadhaarQR`:
`/^\d+$/.test(qrData) && qrData.length >= 100`. -/
def isMadhaarQR (qrData : List Char) : Bool :=
  regexNumeric qrData && decide (100 ≤ qrData.length)

/-- Shape test used to state the `DD/MM/YYYY` (or `DD-MM-YYYY`) claim:
ten characters, digits everywhere except the given separator at
positions 2 and 5. -/
def matchesDateShape (sep : Char) : List Char → Bool
  | [a, b, c, d, e, f, g, h, i, j] =>
    a.isDigit && b.isDigit && (c == sep) && d.isDigit && e.isDigit &&
    (f == sep) && g.isDigit && h.isDigit && i.isDigit && j.isDigit
  | _ => false

/-- One step of the address accumulation, stated on the already
extracted part (pointwise equal to `addrStep`, which feeds it
`extractField delims signedData i`). -/
def joinStep (address part : List Char) : List Char :=
  if part.isEmpty then address
  else address ++ (if address.isEmpty then [] else commaSpace) ++ part

/-- Concrete decompressed buffer: a 34-byte signed region whose bytes
5–8 are `' '`, `'1'`, `'2'`, `'3'`, with seven delimiters bounding the
fields name `"Name"`, date of birth `"15-08-1990"`, gender `"M"` and
one address part `"A"`, followed by 256 zero signature bytes. -/
def cbufC2 : List Nat :=
  [48, 48, 48, 48, 48, 32, 49, 50, 51,
   255, 97, 255, 98, 255,
   78, 97, 109, 101, 255,
   49, 53, 45, 48, 56, 45, 49, 57, 57, 48, 255,
   77, 255, 65, 255] ++ List.replicate 256 0

/-- The record `parseDecompressed` returns on `cbufC2`. -/
def recC2 : AadhaarData :=
  { name := ['N', 'a', 'm', 'e'],
    dateOfBirth := ['1', '5', '/', '0', '8', '/', '1', '9', '9', '0'],
    gender := ['M'],
    address := ['A'],
    aadhaarLast4Digits := [' ', '1', '2', '3'],
    pincode := none,
    state := none,
    photo := none }

/-- Concrete decompressed buffer: a 32-byte signed region whose bytes
5–8 are `"1234"`, with seven delimiters bounding the fields name
`"Name"`, date of birth `"19900815"` (no separators), gender `"M"` and
one address part `"A"`, followed by 256 zero signature bytes. -/
def cbufC3 : List Nat :=
  [48, 48, 48, 48, 48, 49, 50, 51, 52,
   255, 97, 255, 98, 255,
   78, 97, 109, 101, 255,
   49, 57, 57, 48, 48, 56, 49, 53, 255,
   77, 255, 65, 255] ++ List.replicate 256 0

/-- The record `parseDecompressed` returns on `cbufC3`. -/
def recC3 : AadhaarData :=
  { name := ['N', 'a', 'm', 'e'],
    dateOfBirth := ['1', '9', '9', '0', '0', '8', '1', '5'],
    gender := ['M'],
    address := ['A'],
    aadhaarLast4Digits := ['1', '2', '3', '4'],
    pincode := none,
    state := none,
    photo := none }

/-- A concrete stand-in for the external bigint-to-bytes primitive. -/
def constBytes : Nat → List Nat := fun _ => []

/-- A concrete decompression primitive returning the empty buffer. -/
def dcNil : List Nat → Option (List Nat) := fun _ => some []

/-- A concrete decompression primitive returning `cbufC2`. -/
def dcC2 : List Nat → Option (List Nat) := fun _ => some cbufC2

/-- A concrete decompression primitive returning `cbufC3`. -/
def dcC3 : List Nat → Option (List Nat) := fun _ => some cbufC3

/-- A concrete valid-looking QR input: one hundred `'1'` digits. -/
def qr100 : List Char := List.replicate 100 '1'

/-- A string splits into one more part than it has dash characters. -/
theorem splitOnDash_ne_nil (s : List Char) : splitOnDash s ≠ [] := by
  induction s with
  | nil => simp [splitOnDash]
  | cons c rest ih =>
    simp only [splitOnDash]
    split
    · simp
    · split
      · simp
      · simp

/-- Length of the split equals the dash count plus one, as for the
JavaScript `split` with a single-character separator. -/
theorem splitOnDash_length (s : List Char) :
    (splitOnDash s).length = s.count '-' + 1 := by
  induction s with
  | nil => simp [splitOnDash]
  | cons c rest ih =>
    simp only [splitOnDash]
    by_cases hc : c = '-'
    · subst hc
      simp [List.count_cons, ih]
    · rcases e : splitOnDash rest with _ | ⟨p, ps⟩
      · exact absurd e (splitOnDash_ne_nil rest)
      · rw [e] at ih
        simp only [if_neg hc, e]
        simp only [List.length_cons] at ih ⊢
        rw [List.count_cons]
        simp [hc, Ne.symm]
        omega

/-- No part produced by the split contains a dash. -/
theorem splitOnDash_no_dash (s : List Char) :
    ∀ p ∈ splitOnDash s, p.count '-' = 0 := by
  induction s with
  | nil => simp [splitOnDash]
  | cons c rest ih =>
    intro p hp
    simp only [splitOnDash] at hp
    by_cases hc : c = '-'
    · rw [if_pos hc, List.mem_cons] at hp
      rcases hp with hp | hp
      · simp [hp]
      · exact ih p hp
    · rw [if_neg hc] at hp
      rcases e : splitOnDash rest with _ | ⟨q, qs⟩
      · exact absurd e (splitOnDash_ne_nil rest)
      · rw [e, List.mem_cons] at hp
        rcases hp with hp | hp
        · subst hp
          rw [List.count_cons]
          have := ih q (e ▸ List.mem_cons_self q qs)
          simp [hc, Ne.symm, this]
        · exact ih p (e ▸ List.mem_cons_of_mem q hp)

/-- The dash-to-slash map leaves no dash in its output. -/
theorem map_dashToSlash_count (s : List Char) :
    (s.map dashToSlash).count '-' = 0 := by
  induction s with
  | nil => simp
  | cons c rest ih =>
    rw [List.map_cons, List.count_cons, ih]
    by_cases hc : c = '-'
    · simp [dashToSlash, hc]
    · simp [dashToSlash, hc, Ne.symm]

/-- The dash-to-slash map is the identity on dash-free strings. -/
theorem map_dashToSlash_id (s : List Char) (h : s.count '-' = 0) :
    s.map dashToSlash = s := by
  induction s with
  | nil => simp
  | cons c rest ih =>
    rw [List.count_cons] at h
    have hc : ¬(c = '-') := by
      intro w
      simp [w] at h
    rw [List.map_cons, ih (by omega)]
    simp [dashToSlash, hc]

/-- A decimal digit character is not the dash character. -/
theorem digit_ne_dash (c : Char) (h : c.isDigit = true) : ¬(c = '-') := by
  intro w
  rw [w] at h
  exact absurd h (by decide)

/-- As long as fewer than 18 delimiters can be collected in total, the
scan never hits its break and returns one index per delimiter byte. -/
theorem delimiterScanAux_length (l : List Nat) :
    ∀ (i : Nat) (acc : List Nat), acc.length + l.count 255 < 18 →
    (delimiterScanAux l i acc).length = acc.length + l.count 255 := by
  induction l with
  | nil => intro i acc h; simp [delimiterScanAux]
  | cons b rest ih =>
    intro i acc h
    rw [List.count_cons] at h
    simp only [delimiterScanAux]
    by_cases hb : b = 255
    · subst hb
      simp only [beq_self_eq_true, if_true] at h
      rw [if_pos rfl]
      rw [if_neg (by simp; omega)]
      rw [ih (i + 1) (i :: acc) (by simp; omega)]
      rw [List.count_cons]
      simp
      omega
    · have hbf : (b == 255) = false := by
        simp [hb]
      rw [hbf] at h
      simp only [Bool.false_eq_true, if_false, Nat.add_zero] at h
      rw [if_neg hb]
      rw [ih (i + 1) acc h]
      rw [List.count_cons, hbf]
      simp

/-- The delimiter scan returns one index per delimiter byte whenever the
buffer holds fewer than 18 of them. -/
theorem delimiterScan_length (s : List Nat) (h : s.count 255 < 18) :
    (delimiterScan s).length = s.count 255 := by
  have := delimiterScanAux_length s 0 [] (by simpa using h)
  simpa using this

/-- Inversion of the success path of `parseDecompressed`: a returned
record is exactly the one assembled from the extracted fields. -/
theorem parseDecompressed_ok (decoded : List Nat) (r : AadhaarData)
    (h : parseDecompressed decoded = Except.ok r) :
    r = { name := extractField (delimiterScan (signedRegion decoded)) (signedRegion decoded) FIELD_POSITIONS.NAME,
          dateOfBirth := formatDOB (extractField (delimiterScan (signedRegion decoded)) (signedRegion decoded) FIELD_POSITIONS.DOB),
          gender := extractField (delimiterScan (signedRegion decoded)) (signedRegion decoded) FIELD_POSITIONS.GENDER,
          address := if (buildAddress (delimiterScan (signedRegion decoded)) (signedRegion decoded)).isEmpty
                     then addressNotAvailable
                     else buildAddress (delimiterScan (signedRegion decoded)) (signedRegion decoded),
          aadhaarLast4Digits := charsOfBytes (sliceNat (signedRegion decoded) 5 9),
          pincode := if (extractField (delimiterScan (signedRegion decoded)) (signedRegion decoded) FIELD_POSITIONS.PINCODE).isEmpty
                     then none
                     else some (extractField (delimiterScan (signedRegion decoded)) (signedRegion decoded) FIELD_POSITIONS.PINCODE),
          state := if (extractField (delimiterScan (signedRegion decoded)) (signedRegion decoded) FIELD_POSITIONS.STATE).isEmpty
                   then none
                   else some (extractField (delimiterScan (signedRegion decoded)) (signedRegion decoded) FIELD_POSITIONS.STATE),
          photo := none } := by
  simp only [parseDecompressed] at h
  split at h
  · exact Except.noConfusion h
  · exact (Except.ok.inj h).symm

/-- Inversion of the success path of the full `parseAadhaarQR`: success
means the decompression primitive produced some buffer on which
`parseDecompressed` succeeded. -/
theorem parseAadhaarQR_ok_decoded (tb : Nat → List Nat)
    (dc : List Nat → Option (List Nat)) (qr : List Char) (r : AadhaarData)
    (h : parseAadhaarQR tb dc qr = Except.ok r) :
    ∃ decoded, dc (tb (natOfDigits qr)) = some decoded ∧
      parseDecompressed decoded = Except.ok r := by
  simp only [parseAadhaarQR] at h
  split at h
  · exact Except.noConfusion h
  · split at h
    · exact Except.noConfusion h
    · split at h
      · exact Except.noConfusion h
      · next decoded heq => exact ⟨decoded, heq, h⟩

/-- Unfolding equation for `joinSep` on a cons cell. -/
theorem joinSep_cons (sep p : List Char) (L : List (List Char)) :
    joinSep sep (p :: L) = if L.isEmpty then p else p ++ sep ++ joinSep sep L := by
  cases L with
  | nil => simp [joinSep]
  | cons q qs => simp [joinSep]

/-- Joining strings that are all non-empty gives the empty string only
for the empty list of parts. -/
theorem joinSep_isEmpty (sep : List Char) (L : List (List Char))
    (h : ∀ p ∈ L, p.isEmpty = false) :
    (joinSep sep L).isEmpty = L.isEmpty := by
  cases L with
  | nil => simp [joinSep]
  | cons p qs =>
    rw [joinSep_cons]
    have hp : p.isEmpty = false := h p (List.mem_cons_self p qs)
    cases qs with
    | nil => simpa using hp
    | cons q qt =>
      simp only [List.isEmpty_cons, if_false]
      rcases p with _ | ⟨c, cs⟩
      · simp at hp
      · simp

/-- The accumulation loop of the source equals joining the non-empty
parts with `", "`, for any starting accumulator. -/
theorem foldl_joinStep (ps : List (List Char)) :
    ∀ acc : List Char,
    List.foldl joinStep acc ps =
      if acc.isEmpty then joinSep commaSpace (ps.filter (fun p => !p.isEmpty))
      else if (ps.filter (fun p => !p.isEmpty)).isEmpty then acc
      else acc ++ commaSpace ++ joinSep commaSpace (ps.filter (fun p => !p.isEmpty)) := by
  induction ps with
  | nil =>
    intro acc
    rcases acc with _ | ⟨c, cs⟩
    · simp [joinSep]
    · simp [joinSep]
  | cons p ps ih =>
    intro acc
    rw [List.foldl_cons]
    by_cases hp : p.isEmpty
    · have hstep : joinStep acc p = acc := by simp [joinStep, hp]
      rw [hstep, ih acc]
      simp [List.filter_cons, hp]
    · have hpf : p.isEmpty = false := by simpa using hp
      rw [List.filter_cons]
      simp only [hpf, Bool.not_false, if_true]
      by_cases ha : acc.isEmpty
      · have hacc : acc = [] := by simpa [List.isEmpty_iff] using ha
        subst hacc
        have hstep : joinStep [] p = p := by simp [joinStep]
        rw [hstep, ih p]
        rw [joinSep_cons]
        simp [hpf]
      · have haf : acc.isEmpty = false := by simpa using ha
        have hstep : joinStep acc p = acc ++ commaSpace ++ p := by
          simp [joinStep, hpf, haf]
        rw [hstep, ih (acc ++ commaSpace ++ p)]
        have hne : (acc ++ commaSpace ++ p).isEmpty = false := by
          simp [commaSpace]
        rw [joinSep_cons]
        simp only [haf, hne, Bool.false_eq_true, if_false]
        by_cases hrest : (ps.filter (fun p => !p.isEmpty)).isEmpty
        · simp [hrest]
        · have hrf : (ps.filter (fun p => !p.isEmpty)).isEmpty = false := by
            simpa using hrest
          simp [hrf, List.append_assoc]

/-- The source's address loop over field positions 6–10 joins exactly
the non-empty extracted parts with `", "`. -/
theorem buildAddress_spec (d s : List Nat) :
    buildAddress d s =
      joinSep commaSpace
        (([6, 7, 8, 9, 10].map (extractField d s)).filter (fun p => !p.isEmpty)) := by
  have hmap :
      ([6, 7, 8, 9, 10].map (extractField d s)).foldl joinStep [] =
        [6, 7, 8, 9, 10].foldl (addrStep d s) [] := by
    rw [List.foldl_map]
    rfl
  rw [buildAddress, ← hmap, foldl_joinStep]
  simp

/-- C1 (amended): the signed region is `slice(0, length - 256)` with
JavaScript's negative-end coercion, so it equals the buffer with its
last 256 bytes removed only when the buffer holds at least 256 bytes;
for a shorter buffer it is the first `max(2·length - 256, 0)` bytes,
which is empty only when the length is at most 128. -/
theorem c1_signed_region (decoded : List Nat) :
    (256 ≤ decoded.length →
      signedRegion decoded = decoded.take (decoded.length - 256)) ∧
    (decoded.length < 256 →
      signedRegion decoded = decoded.take (2 * decoded.length - 256)) := by
  have hk : (min (0 : Int) (decoded.length : Int)) = 0 := by omega
  constructor
  · intro h
    simp only [signedRegion, jsSlice]
    rw [if_neg (by norm_num : ¬((0 : Int) < 0)),
        if_neg (by omega : ¬((decoded.length : Int) - 256 < 0)), hk]
    have e1 : (min ((decoded.length : Int) - 256) (decoded.length : Int) - 0).toNat
        = decoded.length - 256 := by omega
    rw [e1]
    simp
  · intro h
    simp only [signedRegion, jsSlice]
    rw [if_neg (by norm_num : ¬((0 : Int) < 0)),
        if_pos (by omega : (decoded.length : Int) - 256 < 0), hk]
    have e1 : (max ((decoded.length : Int) + ((decoded.length : Int) - 256)) 0 - 0).toNat
        = 2 * decoded.length - 256 := by omega
    rw [e1]
    simp

/-- C1 counterexample: on a 200-byte buffer the claim demands an empty
signed region (200 ≤ 256), but the source's negative-end slice keeps
the first 144 bytes. -/
theorem c1_counterexample :
    signedRegion (List.replicate 200 7) = List.replicate 144 7 ∧
    (List.replicate (200 : Nat) 7).take ((List.replicate (200 : Nat) 7).length - 256)
      = ([] : List Nat) ∧
    List.replicate (144 : Nat) 7 ≠ ([] : List Nat) := by
  refine ⟨rfl, by decide, by decide⟩

/-- C1 witness: both branches of the amended statement at concrete
buffer lengths 300 and 100. -/
theorem c1_witness :
    signedRegion (List.replicate 300 1)
      = (List.replicate (300 : Nat) 1).take ((List.replicate (300 : Nat) 1).length - 256) ∧
    signedRegion (List.replicate 100 1)
      = (List.replicate (100 : Nat) 1).take (2 * (List.replicate (100 : Nat) 1).length - 256) :=
  ⟨(c1_signed_region (List.replicate 300 1)).1 (by decide),
   (c1_signed_region (List.replicate 100 1)).2 (by decide)⟩

/-- C4: the date-of-birth reformatting splits the raw field on dashes;
with exactly two dashes (three parts) the parts are rejoined with
slashes in order, otherwise every dash is replaced by a slash, so a
dash-free raw value is returned unchanged. -/
theorem c4_dob_reformat (raw : List Char) :
    (raw.count '-' = 2 → formatDOB raw = joinSep ['/'] (splitOnDash raw)) ∧
    (raw.count '-' ≠ 2 → formatDOB raw = raw.map dashToSlash) ∧
    (raw.count '-' = 0 → formatDOB raw = raw) := by
  have hlen := splitOnDash_length raw
  refine ⟨?_, ?_, ?_⟩
  · intro h2
    have h3 : (splitOnDash raw).length = 3 := by omega
    rcases e : splitOnDash raw with _ | ⟨a, _ | ⟨b, _ | ⟨c, _ | ⟨d, t⟩⟩⟩⟩ <;>
      rw [e] at h3 <;> simp at h3
    simp [formatDOB, e, joinSep]
  · intro h2
    have h3 : ¬((splitOnDash raw).length = 3) := by omega
    simp [formatDOB, h3]
  · intro h0
    have h3 : ¬((splitOnDash raw).length = 3) := by omega
    simp [formatDOB, h3, map_dashToSlash_id raw h0]

/-- C4 witness: the two-dash input is rejoined with slashes, and a
dash-free input is returned unchanged. -/
theorem c4_witness :
    formatDOB ("15-08-1990".toList) = "15/08/1990".toList ∧
    formatDOB ("19900815".toList) = "19900815".toList := by
  constructor
  · have h := (c4_dob_reformat ("15-08-1990".toList)).1 (by decide)
    rw [h]
    decide
  · exact (c4_dob_reformat ("19900815".toList)).2.2 (by decide)

/-- C5: a field position at or beyond the number of collected delimiter
indices extracts the empty string (the guard at the top of
`extractField`); the embedding is a total function, so no out-of-bounds
access can occur. -/
theorem c5_field_out_of_range (delims signedData : List Nat) (position : Nat)
    (h : delims.length ≤ position) :
    extractField delims signedData position = [] := by
  simp [extractField, h]

/-- C5 witness: position 7 with only two delimiter indices. -/
theorem c5_witness : extractField [2, 5] [0, 1, 2, 3, 4, 5, 6] 7 = [] :=
  c5_field_out_of_range [2, 5] [0, 1, 2, 3, 4, 5, 6] 7 (by decide)

/-- C9: the mAadhaar classifier accepts exactly the strings of decimal
digits of length at least 100; in particular 99 digits are rejected and
100 digits accepted. -/
theorem c9_classifier :
    (∀ d : List Char, isMadhaarQR d = true ↔
      (d.all (fun c => c.isDigit) = true ∧ 100 ≤ d.length)) ∧
    isMadhaarQR (List.replicate 99 '7') = false ∧
    isMadhaarQR (List.replicate 100 '7') = true := by
  refine ⟨?_, by decide, by decide⟩
  intro d
  simp only [isMadhaarQR, regexNumeric, Bool.and_eq_true, Bool.not_eq_true',
    decide_eq_true_eq]
  constructor
  · rintro ⟨⟨-, h2⟩, h3⟩
    exact ⟨h2, h3⟩
  · rintro ⟨h2, h3⟩
    refine ⟨⟨?_, h2⟩, h3⟩
    cases d with
    | nil => simp at h3
    | cons c cs => simp

/-- C6: when the signed region holds fewer than 7 delimiter bytes the
decoder fails with the insufficient-structure error (a `FormatError` in
the spec's taxonomy), and no record is constructed — the embedding
returns `Except.error`, which carries no record. -/
theorem c6_insufficient_delimiters (tb : Nat → List Nat)
    (dc : List Nat → Option (List Nat)) (qr : List Char) (decoded : List Nat)
    (h1 : regexNumeric qr = true) (h2 : 100 ≤ qr.length)
    (h3 : dc (tb (natOfDigits qr)) = some decoded)
    (h4 : (signedRegion decoded).count 255 < 7) :
    parseAadhaarQR tb dc qr
      = Except.error (ParseError.insufficientDelimiters ((signedRegion decoded).count 255)) ∧
    isFormatError (ParseError.insufficientDelimiters ((signedRegion decoded).count 255)) = true := by
  have hscan : (delimiterScan (signedRegion decoded)).length
      = (signedRegion decoded).count 255 :=
    delimiterScan_length _ (by omega)
  refine ⟨?_, rfl⟩
  simp only [parseAadhaarQR, h1, Bool.not_true, Bool.false_eq_true, if_false]
  rw [if_neg (by omega : ¬(qr.length < 100)), h3]
  simp only [parseDecompressed, hscan]
  rw [if_pos h4]

/-- C6 witness: a 100-digit input whose decompression yields the empty
buffer, which contains no delimiter at all. -/
theorem c6_witness :
    parseAadhaarQR constBytes dcNil qr100
      = Except.error (ParseError.insufficientDelimiters ((signedRegion []).count 255)) ∧
    isFormatError (ParseError.insufficientDelimiters ((signedRegion []).count 255)) = true :=
  c6_insufficient_delimiters constBytes dcNil qr100 []
    (by decide) (by decide) rfl (by decide)

/-- C7: an input containing a non-digit character fails with the
not-numeric error (a `FormatError`), for every choice of the two
external primitives — so neither the bigint-to-bytes conversion nor the
decompression primitive can influence (or be needed for) the result. -/
theorem c7_non_digit_rejection (tb : Nat → List Nat)
    (dc : List Nat → Option (List Nat)) (qr : List Char)
    (h : ∃ c ∈ qr, c.isDigit = false) :
    parseAadhaarQR tb dc qr = Except.error ParseError.notNumeric ∧
    isFormatError ParseError.notNumeric = true := by
  obtain ⟨c, hc, hd⟩ := h
  have hall : qr.all (fun x => x.isDigit) = false := by
    cases hA : qr.all (fun x => x.isDigit) with
    | false => rfl
    | true => exact absurd (List.all_eq_true.mp hA c hc) (by simp [hd])
  have hr : regexNumeric qr = false := by
    simp [regexNumeric, hall]
  exact ⟨by simp [parseAadhaarQR, hr], rfl⟩

/-- C7 witness: the single letter input `"a"` is rejected with the
not-numeric error under concrete primitives. -/
theorem c7_witness :
    parseAadhaarQR constBytes dcNil ['a'] = Except.error ParseError.notNumeric ∧
    isFormatError ParseError.notNumeric = true :=
  c7_non_digit_rejection constBytes dcNil ['a'] ⟨'a', by simp, by decide⟩

/-- Keeping the non-empty strings of a list leaves nothing exactly when
every string was empty. -/
theorem filter_not_isEmpty (l : List (List Char)) :
    (l.filter (fun p => !p.isEmpty)).isEmpty = l.all (fun p => p.isEmpty) := by
  induction l with
  | nil => simp
  | cons p ps ih =>
    rw [List.filter_cons, List.all_cons]
    by_cases hp : p.isEmpty
    · simp [hp, ih]
    · have hpf : p.isEmpty = false := by simpa using hp
      simp [hpf]

/-- C2 (amended): every delimiter-bounded field is produced by mapping
each byte to the character with that code point, concatenating and
trimming; the last-4-digits field (bytes 5 through 8 of the signed
region) is mapped and concatenated but NOT trimmed. -/
theorem c2_field_decoding :
    (∀ delims signedData position,
      extractField delims signedData position
        = jsTrim (charsOfBytes (fieldBytes delims signedData position))) ∧
    (∀ decoded r, parseDecompressed decoded = Except.ok r →
      r.aadhaarLast4Digits = charsOfBytes (sliceNat (signedRegion decoded) 5 9)) := by
  constructor
  · intro d s p
    by_cases h : d.length ≤ p
    · simp [extractField, fieldBytes, h, jsTrim, charsOfBytes]
    · simp [extractField, fieldBytes, h]
  · intro decoded r h
    rw [parseDecompressed_ok decoded r h]

/-- C2 counterexample: on `cbufC2` the parse succeeds and returns the
last-4 field `" 123"` with its leading space, which differs from the
trimmed decoding the claim prescribes for every field. -/
theorem c2_counterexample :
    parseAadhaarQR constBytes dcC2 qr100 = Except.ok recC2 ∧
    recC2.aadhaarLast4Digits
      ≠ jsTrim (charsOfBytes (sliceNat (signedRegion cbufC2) 5 9)) := by
  refine ⟨rfl, by decide⟩

/-- C2 witness: the untrimmed last-4 decoding on the concrete buffer. -/
theorem c2_witness :
    recC2.aadhaarLast4Digits = charsOfBytes (sliceNat (signedRegion cbufC2) 5 9) :=
  c2_field_decoding.2 cbufC2 recC2 rfl

/-- C8: the address of a returned record joins exactly the non-empty
parts among the extracted fields 6 through 10, in field order, with
`", "`; when all five parts are empty it is the placeholder
`"Address not available"`. -/
theorem c8_address_join (decoded : List Nat) (r : AadhaarData)
    (h : parseDecompressed decoded = Except.ok r) :
    r.address =
      if ([6, 7, 8, 9, 10].map
            (extractField (delimiterScan (signedRegion decoded)) (signedRegion decoded))).all
          (fun p => p.isEmpty)
      then addressNotAvailable
      else joinSep commaSpace
        (([6, 7, 8, 9, 10].map
            (extractField (delimiterScan (signedRegion decoded)) (signedRegion decoded))).filter
          (fun p => !p.isEmpty)) := by
  have hr := parseDecompressed_ok decoded r h
  subst hr
  dsimp only
  rw [buildAddress_spec]
  have hmem : ∀ p ∈ ([6, 7, 8, 9, 10].map
      (extractField (delimiterScan (signedRegion decoded)) (signedRegion decoded))).filter
      (fun p => !p.isEmpty), p.isEmpty = false := by
    intro p hp
    have := List.of_mem_filter hp
    simpa using this
  rw [joinSep_isEmpty _ _ hmem, filter_not_isEmpty]

/-- C8 witness: the address of the record decoded from `cbufC2`, whose
only non-empty address part is field 6. -/
theorem c8_witness :
    recC2.address =
      if ([6, 7, 8, 9, 10].map
            (extractField (delimiterScan (signedRegion cbufC2)) (signedRegion cbufC2))).all
          (fun p => p.isEmpty)
      then addressNotAvailable
      else joinSep commaSpace
        (([6, 7, 8, 9, 10].map
            (extractField (delimiterScan (signedRegion cbufC2)) (signedRegion cbufC2))).filter
          (fun p => !p.isEmpty)) :=
  c8_address_join cbufC2 recC2 rfl

/-- C10: every successfully returned record has an absent (`none`)
photo, even though the record type declares the field and
`FIELD_POSITIONS` defines a photo position of 18 — no code path
populates it. -/
theorem c10_photo_absent :
    (∀ (tb : Nat → List Nat) (dc : List Nat → Option (List Nat))
        (qr : List Char) (r : AadhaarData),
      parseAadhaarQR tb dc qr = Except.ok r → r.photo = none) ∧
    FIELD_POSITIONS.PHOTO = 18 := by
  constructor
  · intro tb dc qr r h
    obtain ⟨decoded, -, hd⟩ := parseAadhaarQR_ok_decoded tb dc qr r h
    rw [parseDecompressed_ok decoded r hd]
  · rfl

/-- C10 witness: the record decoded from `cbufC3` has no photo. -/
theorem c10_witness : recC3.photo = none :=
  c10_photo_absent.1 constBytes dcC3 qr100 recC3 rfl

/-- The reformatted date of birth never contains a dash: either the
three split parts (dash-free by construction) are joined with slashes,
or every dash is replaced by a slash. -/
theorem formatDOB_no_dash (s : List Char) : (formatDOB s).count '-' = 0 := by
  by_cases h3 : (splitOnDash s).length = 3
  · rcases e : splitOnDash s with _ | ⟨a, _ | ⟨b, _ | ⟨c, _ | ⟨d, t⟩⟩⟩⟩ <;>
      rw [e] at h3 <;> simp at h3
    have ha := splitOnDash_no_dash s a (by rw [e]; simp)
    have hb := splitOnDash_no_dash s b (by rw [e]; simp)
    have hc := splitOnDash_no_dash s c (by rw [e]; simp)
    simp [formatDOB, e, List.count_append, List.count_cons, ha, hb, hc]
  · simp [formatDOB, h3, map_dashToSlash_count]

/-- A raw value in `DD-MM-YYYY` shape is reformatted into `DD/MM/YYYY`
shape: the split yields exactly the three digit groups, which are
rejoined with slashes. -/
theorem formatDOB_shape (s : List Char) (h : matchesDateShape '-' s = true) :
    matchesDateShape '/' (formatDOB s) = true := by
  rcases s with _ | ⟨a, _ | ⟨b, _ | ⟨c, _ | ⟨d, _ | ⟨e, _ | ⟨f, _ | ⟨g, _ |
    ⟨h8, _ | ⟨i9, _ | ⟨j, _ | ⟨k, t⟩⟩⟩⟩⟩⟩⟩⟩⟩⟩⟩ <;>
    first
      | exact Bool.noConfusion h
      | skip
  simp only [matchesDateShape, Bool.and_eq_true] at h
  obtain ⟨⟨⟨⟨⟨⟨⟨⟨⟨ha, hb⟩, hc⟩, hd⟩, he⟩, hf⟩, hg⟩, hh⟩, hi⟩, hj⟩ := h
  rw [beq_iff_eq] at hc hf
  subst hc
  subst hf
  have e1 : splitOnDash [a, b, '-', d, e, '-', g, h8, i9, j]
      = [[a, b], [d, e], [g, h8, i9, j]] := by
    simp [splitOnDash, digit_ne_dash a ha, digit_ne_dash b hb, digit_ne_dash d hd,
      digit_ne_dash e he, digit_ne_dash g hg, digit_ne_dash h8 hh,
      digit_ne_dash i9 hi, digit_ne_dash j hj]
  simp [formatDOB, e1, matchesDateShape, ha, hb, hd, he, hg, hh, hi, hj]

/-- C3 (amended): the date of birth of a returned record is the raw
field-4 value with dashes turned into slashes — it contains no dash,
and it is in `DD/MM/YYYY` shape whenever the raw value is in
`DD-MM-YYYY` shape, but a raw value of any other shape (such as
`"19900815"`) passes through without being forced into that form. -/
theorem c3_dob_format :
    (∀ (tb : Nat → List Nat) (dc : List Nat → Option (List Nat))
        (qr : List Char) (r : AadhaarData),
      parseAadhaarQR tb dc qr = Except.ok r → r.dateOfBirth.count '-' = 0) ∧
    (∀ s, matchesDateShape '-' s = true →
      matchesDateShape '/' (formatDOB s) = true) ∧
    (∀ decoded r, parseDecompressed decoded = Except.ok r →
      r.dateOfBirth = formatDOB (extractField (delimiterScan (signedRegion decoded))
        (signedRegion decoded) FIELD_POSITIONS.DOB)) := by
  refine ⟨?_, fun s h => formatDOB_shape s h, ?_⟩
  · intro tb dc qr r h
    obtain ⟨decoded, -, hd⟩ := parseAadhaarQR_ok_decoded tb dc qr r h
    rw [parseDecompressed_ok decoded r hd]
    exact formatDOB_no_dash _
  · intro decoded r h
    rw [parseDecompressed_ok decoded r h]

/-- C3 counterexample: `cbufC3` parses successfully with raw field 4
equal to `"19900815"`, and the returned date of birth is not in
`DD/MM/YYYY` form. -/
theorem c3_counterexample :
    parseAadhaarQR constBytes dcC3 qr100 = Except.ok recC3 ∧
    matchesDateShape '/' recC3.dateOfBirth = false :=
  ⟨rfl, by decide⟩

/-- C3 witness: the three amended conjuncts at concrete inputs — the
record decoded from `cbufC2` (raw field 4 `"15-08-1990"`) and the
dash-shaped string itself. -/
theorem c3_witness :
    recC2.dateOfBirth.count '-' = 0 ∧
    matchesDateShape '/' (formatDOB ("15-08-1990".toList)) = true ∧
    recC2.dateOfBirth = formatDOB (extractField (delimiterScan (signedRegion cbufC2))
      (signedRegion cbufC2) FIELD_POSITIONS.DOB) :=
  ⟨c3_dob_format.1 constBytes dcC2 qr100 recC2 rfl,
   c3_dob_format.2.1 ("15-08-1990".toList) (by decide),
   c3_dob_format.2.2 cbufC2 recC2 rfl⟩
